import Mathlib

/-!
# Verification of the OpenZeppelin language server's namespace engine

This file embeds, in Lean, the two source files of the repository
(`src/server/src/server.ts` and the quick-fix module given as
`src/unnamed/part_000`) together with the parts of the `namespace`
module they import, and proves properties of the embedding.

Machine integers are modelled as `Nat` with explicit `% 2 ^ 64`
(respectively `% 2 ^ 256`) where overflow matters.  Text positions are
modelled as character-offset spans in one snapshot of the document;
the editor-protocol range and the parser's text range live in the same
coordinate space here, so the source's `slangToVSCodeRange` conversion
is the identity of this model.
-/

/-! ## Keccak-256 (the hash the namespace module derives slots with) -/

/-- Left-rotation of a 64-bit lane (input assumed `< 2 ^ 64`). -/
def rotl64 (x n : Nat) : Nat :=
  (((x <<< n) % (2 ^ 64)) ||| (x >>> (64 - n)))

/-- The 24 round constants of keccak-f[1600]. -/
def keccakRC : List Nat :=
  [0x0000000000000001, 0x0000000000008082, 0x800000000000808a, 0x8000000080008000,
   0x000000000000808b, 0x0000000080000001, 0x8000000080008081, 0x8000000000008009,
   0x000000000000008a, 0x0000000000000088, 0x0000000080008009, 0x000000008000000a,
   0x000000008000808b, 0x800000000000008b, 0x8000000000008089, 0x8000000000008003,
   0x8000000000008002, 0x8000000000000080, 0x000000000000800a, 0x800000008000000a,
   0x8000000080008081, 0x8000000000008080, 0x0000000080000001, 0x8000000080008008]

/-- Lane `i` of a 25-lane state (index `x + 5 * y`). -/
def lane (s : List Nat) (i : Nat) : Nat := s.getD i 0

/-- The theta step of keccak-f. -/
def keccakTheta (s : List Nat) : List Nat :=
  let c : Nat → Nat := fun x =>
    lane s x ^^^ lane s (x + 5) ^^^ lane s (x + 10) ^^^ lane s (x + 15) ^^^ lane s (x + 20)
  let d : Nat → Nat := fun x => c ((x + 4) % 5) ^^^ rotl64 (c ((x + 1) % 5)) 1
  (List.range 25).map (fun i => lane s i ^^^ d (i % 5))

/-- Source lane of output lane `t` under the combined rho-pi permutation. -/
def rhoPiSrc : List Nat :=
  [0, 6, 12, 18, 24, 3, 9, 10, 16, 22, 1, 7, 13, 19, 20, 4, 5, 11, 17, 23, 2, 8, 14, 15, 21]

/-- Rotation applied to the source lane of output lane `t` under rho-pi. -/
def rhoPiRot : List Nat :=
  [0, 44, 43, 21, 14, 28, 20, 3, 45, 61, 1, 6, 25, 8, 18, 27, 36, 10, 15, 56, 62, 55, 39, 41, 2]

/-- The combined rho and pi steps of keccak-f. -/
def keccakRhoPi (s : List Nat) : List Nat :=
  (List.range 25).map (fun t => rotl64 (lane s (rhoPiSrc.getD t 0)) (rhoPiRot.getD t 0))

/-- The chi step of keccak-f. -/
def keccakChi (s : List Nat) : List Nat :=
  (List.range 25).map (fun i =>
    let x := i % 5
    let y := i / 5
    lane s i ^^^ ((lane s ((x + 1) % 5 + 5 * y) ^^^ 0xffffffffffffffff) &&&
      lane s ((x + 2) % 5 + 5 * y)))

/-- The iota step of keccak-f: xor the round constant into lane 0. -/
def keccakIota (rc : Nat) (s : List Nat) : List Nat :=
  match s with
  | [] => []
  | a :: rest => (a ^^^ rc) :: rest

/-- The keccak-f[1600] permutation: 24 rounds of theta, rho-pi, chi, iota. -/
def keccakF (s : List Nat) : List Nat :=
  keccakRC.foldl (fun st rc => keccakIota rc (keccakChi (keccakRhoPi (keccakTheta st)))) s

/-- Original keccak multi-rate padding at rate 136 bytes (domain byte 0x01),
as used by Ethereum's keccak-256 (not NIST SHA3). -/
def keccakPad (m : List Nat) : List Nat :=
  let padLen := 136 - m.length % 136
  if padLen = 1 then m ++ [0x81]
  else m ++ [0x01] ++ List.replicate (padLen - 2) 0 ++ [0x80]

/-- A 64-bit lane from up to 8 bytes, little-endian. -/
def loadLane (bytes : List Nat) : Nat := bytes.foldr (fun b acc => acc * 256 + b) 0

/-- Absorb one 136-byte block into the state and permute. -/
def absorbBlock (st block : List Nat) : List Nat :=
  keccakF ((List.range 25).map (fun i =>
    lane st i ^^^ (if i < 17 then loadLane ((block.drop (8 * i)).take 8) else 0)))

/-- keccak-256 of a byte sequence, as a 256-bit natural number whose most
significant byte is the first byte of the digest. -/
def keccak256Bytes (m : List Nat) : Nat :=
  let padded := keccakPad m
  let finalState := (List.range (padded.length / 136)).foldl
    (fun st i => absorbBlock st ((padded.drop (136 * i)).take 136))
    (List.replicate 25 0)
  (List.range 32).foldl
    (fun acc i => acc * 256 + ((lane finalState (i / 8) >>> (8 * (i % 8))) % 256)) 0

/-- UTF-8 encoding of one character. -/
def utf8EncodeChar (c : Char) : List Nat :=
  let n := c.toNat
  if n < 0x80 then [n]
  else if n < 0x800 then [0xc0 ||| (n >>> 6), 0x80 ||| (n &&& 0x3f)]
  else if n < 0x10000 then
    [0xe0 ||| (n >>> 12), 0x80 ||| ((n >>> 6) &&& 0x3f), 0x80 ||| (n &&& 0x3f)]
  else
    [0xf0 ||| (n >>> 18), 0x80 ||| ((n >>> 12) &&& 0x3f),
     0x80 ||| ((n >>> 6) &&& 0x3f), 0x80 ||| (n &&& 0x3f)]

/-- Concatenation of a function's outputs over a list (the model's `flatMap`). -/
def flatMapL (f : α → List β) : List α → List β
  | [] => []
  | a :: as => f a ++ flatMapL f as

/-- UTF-8 bytes of a string. -/
def utf8Encode (s : String) : List Nat := flatMapL utf8EncodeChar s.data

/-- The 32 big-endian bytes of a 256-bit number (`abi.encode` of a `uint256`). -/
def natToBytes32 (n : Nat) : List Nat :=
  (List.range 32).map (fun i => (n >>> (8 * (31 - i))) % 256)

/-- The 256-bit value of `bitwise-not 0xff`, i.e. the mask clearing the low byte. -/
def maskNot0xff : Nat := 2 ^ 256 - 256

/-- Lowercase hexadecimal digit for `k < 16`. -/
def hexDigitChar (k : Nat) : Char :=
  if k < 10 then Char.ofNat (48 + k) else Char.ofNat (87 + k)

/-- The low 256 bits of `n` as exactly 64 lowercase hex characters. -/
def hex64 (n : Nat) : List Char :=
  (List.range 64).map (fun i => hexDigitChar ((n >>> (4 * (63 - i))) % 16))

/-- Modelled from the spec: `computeSlotHash(id)` of the namespace module,
which is not under the repository's staged sources.  The spec's formula,
literally: `H = keccak256(utf8-bytes(id))`; `slot = (H - 1) bitwise-and
(bitwise-not 0xff)`; rendered as a lowercase `0x`-prefixed 64-hex-digit
string.  The subtraction is the 256-bit wrap of the arbitrary-precision
integer computation. -/
def computeSlotHash (id : String) : String :=
  let h := keccak256Bytes (utf8Encode id)
  let slot := ((h + (2 ^ 256 - 1)) % (2 ^ 256)) &&& maskNot0xff
  String.mk ('0' :: 'x' :: hex64 slot)

/-- The published ERC-7201 formula:
`slot = keccak256(abi.encode(uint256(keccak256(id)) - 1)) & ~bytes32(uint256(0xff))`,
rendered the same way as `computeSlotHash`. -/
def erc7201SlotHash (id : String) : String :=
  let h := keccak256Bytes (utf8Encode id)
  let slot := keccak256Bytes (natToBytes32 ((h + (2 ^ 256 - 1)) % (2 ^ 256))) &&& maskNot0xff
  String.mk ('0' :: 'x' :: hex64 slot)

/-! ## Data model

Spans, variables, edits, diagnostics and actions, as the two source files
use them.  A `TextRange` is a span of one document snapshot, given by
character offsets. -/

/-- A span over one snapshot of the document text. -/
structure TextRange where
  start : Nat
  stop : Nat
  deriving DecidableEq, Repr

/-- The optional public-getter descriptor of a storage variable. -/
structure PublicGetter where
  typeName : String
  deriving DecidableEq, Repr

/-- A contract-level storage declaration, as carried in a diagnostic's fix
datum (`Variable` of the namespace module). -/
structure Variable where
  name : String
  content : String
  range : TextRange
  publicGetter : Option PublicGetter
  deriving DecidableEq, Repr

/-- One text edit: a range of the original snapshot and its replacement. -/
structure TextEdit where
  range : TextRange
  newText : String
  deriving DecidableEq, Repr

/-- An identifier terminal inside a constructor or function body. -/
structure Identifier where
  text : String
  range : TextRange
  deriving DecidableEq, Repr

/-- The `Block` of one constructor or function body, with the facets the
quick-fix reads from the syntax tree: the range of its opening brace, every
identifier terminal in it in document order, and its unparsed text. -/
structure Body where
  openBraceRange : TextRange
  identifiers : List Identifier
  unparsed : String
  deriving DecidableEq, Repr

/-- One `ContractDefinition` of the parsed source unit, with the facets the
quick-fix reads through its tree cursors: the contract's name, whether
re-parsing its unparsed text succeeds, the text of the first single-line
NatSpec comment terminal anywhere in the contract (none when the contract
has no such terminal), the range of the first `CloseBrace` terminal anywhere
in the contract, and its constructor/function bodies in document order. -/
structure Contract where
  name : String
  valid : Bool
  firstNatspec : Option String
  firstCloseBrace : TextRange
  bodies : List Body
  deriving DecidableEq, Repr

/-- The `Namespace` record of the namespace module: contract name, naming
prefix (the source calls these fields `prefix` and `variables`; Lean
reserves both words, so they are `pfx` and `vars` here), and the variables
moved into the namespace. -/
structure Namespace where
  contractName : String
  pfx : String
  vars : List Variable
  deriving DecidableEq, Repr

/-- The kind-specific fix datum of a diagnostic: a literal replacement
string, a `{contractName, variables}` record, or absent/malformed data
(reading a field of absent data throws at runtime). -/
inductive DiagData where
  | replacement (s : String)
  | namespaceable (name : String) (vars : List Variable)
  | missing
  deriving DecidableEq, Repr

/-- A diagnostic as the code-action handler consumes it: its string code,
its range and its fix datum. -/
structure Diagnostic where
  code : String
  range : TextRange
  data : DiagData
  deriving DecidableEq, Repr

/-- A quick-fix code action: title, the edit list of its workspace edit for
the one document, and the diagnostics it fixes (its kind is always
`CodeActionKind.QuickFix`). -/
structure CodeAction where
  title : String
  edits : List TextEdit
  fixes : List Diagnostic
  deriving DecidableEq, Repr

/-! ## String containment (JavaScript `String.prototype.includes`) -/

/-- Whether `needle` is an initial segment of `hay`. -/
def listIsPrefixOf : List Char → List Char → Bool
  | [], _ => true
  | _ :: _, [] => false
  | a :: as, b :: bs => a == b && listIsPrefixOf as bs

/-- Whether `needle` occurs contiguously in `hay`. -/
def listContains (needle : List Char) : List Char → Bool
  | [] => listIsPrefixOf needle []
  | b :: bs => listIsPrefixOf needle (b :: bs) || listContains needle bs

/-- JavaScript's `hay.includes(needle)`. -/
def strContains (hay needle : String) : Bool := listContains needle.data hay.data

/-! ## The namespace module

Only `server.ts` and the quick-fix module are under the staged sources; the
`namespace` module they import is not, so its functions are modelled from
the spec. -/

/-- Modelled from the spec: `computeNamespaceId(prefix, contractName)` of the
missing namespace module: `id = "<prefix>.storage.<ContractName>"`. -/
def getNamespaceId (pfx contractName : String) : String :=
  pfx ++ ".storage." ++ contractName

/-- Modelled from the spec: `toStorageStructName` of the missing namespace
module, the `struct <ContractName>Storage` name. -/
def toStorageStructName (contractName : String) : String :=
  contractName ++ "Storage"

/-- Modelled from the spec: `formatIdComment(id)` of the missing namespace
module, the canonical NatSpec storage-location tag embedding `id`. -/
def formatIdComment (id : String) : String :=
  "/// @custom:storage-location erc7201:" ++ id

/-- Modelled from the spec: `formatHashComment(id, hash)` of the missing
namespace module, the derivation comment embedding both `id` and the
literal `hash`. -/
def formatHashComment (id hash : String) : String :=
  "// keccak256(abi.encode(uint256(keccak256(\"" ++ id ++
    "\")) - 1)) & ~bytes32(uint256(0xff)) = " ++ hash

/-- Modelled from the spec: `printNamespaceTemplate` of the missing
namespace module: the canonical id comment, the canonical hash comment,
`struct <ContractName>Storage` with one field per moved variable (original
declaration text preserved verbatim), and an internal accessor function
returning a storage pointer at the canonical slot. -/
def printNamespaceTemplate (ns : Namespace) : String :=
  let id := getNamespaceId ns.pfx ns.contractName
  let structName := toStorageStructName ns.contractName
  let hash := computeSlotHash id
  let fields := ns.vars.foldr (fun v acc => "    " ++ v.content ++ "\n" ++ acc) ""
  formatIdComment id ++ "\n" ++
    formatHashComment id hash ++ "\n" ++
    "struct " ++ structName ++ " \x7b\n" ++ fields ++ "\x7d\n\n" ++
    "function _get" ++ structName ++ "() private pure returns (" ++ structName ++
    " storage $) \x7b\n    assembly \x7b\n        $.slot := " ++ hash ++
    "\n    \x7d\n\x7d\n"

/-- Modelled from the spec: `printPublicGetter` of the missing namespace
module: a getter function that obtains the struct's storage pointer and
returns the field. -/
def printPublicGetter (name typeName structName ind : String) : String :=
  ind ++ "function " ++ name ++ "() public view returns (" ++ typeName ++ ") \x7b\n" ++
    ind ++ "    return _get" ++ structName ++ "()." ++ name ++ ";\n" ++
    ind ++ "\x7d"

/-! ## The quick-fix module (`getMoveAllVariablesToNamespaceQuickFix`)

The embedding follows the source line by line.  The parse of the document
text is represented by the list of its `ContractDefinition`s in document
order; each cursor fact the source reads is a field of `Contract`. -/

/-- `getNamespaceStructEndRange(contractCursor, prefix, contractName)`: spawn
a cursor, go to the next (hence first) single-line NatSpec comment terminal
in the contract; if its text includes the canonical
`@custom:storage-location erc7201:<id>` tag, return the range of the first
`CloseBrace` terminal in the contract, else `none`.  When the contract has
no NatSpec terminal, the cursor does not land on a terminal node and the
function returns `none`. -/
def getNamespaceStructEndRange (c : Contract) (pfx contractName : String) :
    Option TextRange :=
  match c.firstNatspec with
  | some natspecText =>
    if strContains natspecText
        ("@custom:storage-location erc7201:" ++ getNamespaceId pfx contractName) then
      some c.firstCloseBrace
    else none
  | none => none

/-- Whether some moved variable has the identifier's text as its name
(`variables.some(variable => variable.name === identifierNode.text)`). -/
def varNameMatches (vars : List Variable) (i : Identifier) : Bool :=
  vars.any (fun v => v.name == i.text)

/-- `replaceVariables(blockCursor, variables, edits, textDocument)`: walk
every identifier terminal of the block in order; for each one whose text is
a moved variable's name, push an edit rewriting it to `$.<name>`; return
whether any was rewritten.  The result pairs the pushed edits with the
returned flag. -/
def replaceVariables (vars : List Variable) : List Identifier → List TextEdit × Bool
  | [] => ([], false)
  | i :: is =>
    let rest := replaceVariables vars is
    if varNameMatches vars i then
      ({ range := i.range, newText := "$." ++ i.text } :: rest.1, true)
    else rest

/-- The `expectedLine` of `addStorageGetter`:
`<Name>Storage storage $ = _get<Name>Storage();`. -/
def expectedGetterLine (contractName : String) : String :=
  toStorageStructName contractName ++ " storage $ = _get" ++
    toStorageStructName contractName ++ "();"

/-- The text `addStorageGetter` writes over the block's opening brace
(default indent of four spaces, doubled). -/
def storageGetterInsertText (contractName : String) : String :=
  "\x7b\n" ++ "    " ++ "    " ++ expectedGetterLine contractName ++ "\n"

/-- `addStorageGetter(contractName, blockNode, functionBodyCursor, edits,
textDocument)`: if the block's unparsed text does not already include the
expected storage-pointer line, push one edit replacing the block's opening
brace with the brace, a newline and the indented line. -/
def addStorageGetter (contractName : String) (b : Body) : List TextEdit :=
  if strContains b.unparsed (expectedGetterLine contractName) then []
  else [{ range := b.openBraceRange, newText := storageGetterInsertText contractName }]

/-- The edits one constructor/function body contributes: the identifier
rewrites, then, when at least one identifier was rewritten, the storage
getter insertion. -/
def bodyEdits (contractName : String) (vars : List Variable) (b : Body) : List TextEdit :=
  let r := replaceVariables vars b.identifiers
  r.1 ++ (if r.2 then addStorageGetter contractName b else [])

/-- `editNamespaceVariablesInFunctions(contractCursor, contractName,
variables, textDocument, edits)`: for every constructor definition or
function body of the contract, rewrite matching identifiers in its block
and, if any were rewritten, add the storage getter. -/
def editNamespaceVariablesInFunctions (c : Contract) (contractName : String)
    (vars : List Variable) : List TextEdit :=
  flatMapL (bodyEdits contractName vars) c.bodies

/-- The inner `editNewNamespace(edits)`: replace the first variable's range
with the namespace template, then delete every other variable.  Only ever
invoked with a non-empty variable list (the caller returned `undefined`
before this point otherwise). -/
def editNewNamespace (pfx contractName : String) (vars : List Variable) : List TextEdit :=
  match vars with
  | [] => []
  | v0 :: rest =>
    { range := v0.range,
      newText := printNamespaceTemplate ⟨contractName, pfx, v0 :: rest⟩ } ::
      rest.map (fun v => { range := v.range, newText := "" })

/-- The inner `editExistingNamespace(edits, structEndRange, indent)`: for
each variable, replace its declaration with a public getter (when it has
one) or delete it, and push an edit at the struct's end range inserting the
declaration text and a new closing brace. -/
def editExistingNamespace (contractName : String) (vars : List Variable)
    (structEndRange : TextRange) : List TextEdit :=
  flatMapL (fun v =>
    (match v.publicGetter with
     | some g =>
       [{ range := v.range,
          newText := printPublicGetter v.name g.typeName (toStorageStructName contractName) "    " }]
     | none => [{ range := v.range, newText := "" }]) ++
    [{ range := structEndRange,
       newText := "    " ++ v.content ++ "\n" ++ "    " ++ "\x7d" }]) vars

/-- The contract the quick-fix's contract loop settles on: the first
`ContractDefinition` whose unparsed text re-parses without errors (invalid
ones are skipped with a log) and whose name is the requested one. -/
def findTarget (contractName : String) : List Contract → Option Contract
  | [] => none
  | c :: cs =>
    if c.valid && c.name == contractName then some c
    else findTarget contractName cs

/-- `getMoveAllVariablesToNamespaceQuickFix(fixesDiagnostics, title, prefix,
contractName, variables, textDocument)`: scan the parsed document for the
named contract; on the first valid match, compute the namespace-struct end
range and the in-function edits, then stop.  If the variable list is empty
return `undefined`; otherwise append the new-namespace or
existing-namespace edits and return one code action carrying all edits. -/
def getMoveAllVariablesToNamespaceQuickFix (fixesDiagnostics : List Diagnostic)
    (title pfx contractName : String) (vars : List Variable)
    (doc : List Contract) : Option CodeAction :=
  let target := findTarget contractName doc
  let namespaceStructEndRange : Option TextRange :=
    match target with
    | some c => getNamespaceStructEndRange c pfx contractName
    | none => none
  let funcEdits : List TextEdit :=
    match target with
    | some c => editNamespaceVariablesInFunctions c contractName vars
    | none => []
  if vars.length = 0 then none
  else
    let edits := funcEdits ++
      (match namespaceStructEndRange with
       | none => editNewNamespace pfx contractName vars
       | some r => editExistingNamespace contractName vars r)
    some { title := title, edits := edits, fixes := fixesDiagnostics }

/-! ## The server's code-action handler (`server.ts`) -/

/-- Modelled from the spec: the diagnostic code strings of the missing
`diagnostics` module (spec section 6 lists the stable codes). -/
def NAMESPACE_ID_MISMATCH : String := "namespace-id-mismatch"

/-- Modelled from the spec: see `NAMESPACE_ID_MISMATCH`. -/
def NAMESPACE_ID_MISMATCH_HASH_COMMENT : String := "namespace-id-mismatch-hash-comment"

/-- Modelled from the spec: see `NAMESPACE_ID_MISMATCH`. -/
def NAMESPACE_HASH_MISMATCH : String := "namespace-hash-mismatch"

/-- Modelled from the spec: see `NAMESPACE_ID_MISMATCH`. -/
def NAMESPACE_STANDALONE_HASH_MISMATCH : String := "namespace-standalone-hash-mismatch"

/-- Modelled from the spec: see `NAMESPACE_ID_MISMATCH`. -/
def CONTRACT_CAN_BE_NAMESPACED : String := "contract-can-be-namespaced"

/-- `getQuickFixReplacement(fixesDiagnostics, title, range, replacement,
textDocument)`: one action whose workspace edit holds the single edit
`(range, replacement)`. -/
def getQuickFixReplacement (fixesDiagnostics : List Diagnostic) (title : String)
    (range : TextRange) (replacement : String) : CodeAction :=
  { title := title, edits := [{ range := range, newText := replacement }],
    fixes := fixesDiagnostics }

/-- `String(diagnostic.data.replacement)`: reading `.replacement` of absent
data throws a `TypeError`; on a `{name, variables}` datum the field is
`undefined` and `String(undefined)` is the string `"undefined"`. -/
def getDiagReplacement : DiagData → Except String String
  | .replacement s => .ok s
  | .namespaceable _ _ => .ok "undefined"
  | .missing => .error "TypeError"

/-- `(diagnostic.data as NamespaceableContract)`: the `.name` and
`.variables` reads of the move-to-namespace branch.  Absent data throws at
`.name`; a literal-replacement datum yields `undefined` fields, on which
the quick-fix's later `variables.length` read throws — either way the
branch throws before producing an action. -/
def getDiagContract : DiagData → Except String (String × List Variable)
  | .namespaceable n vs => .ok (n, vs)
  | _ => .error "TypeError"

/-- The body of `getCodeActions`' loop for one diagnostic: dispatch on the
diagnostic's code and produce its action, `none` for codes without a fix,
or the thrown error. -/
def processDiagnostic (doc : List Contract) (pfx : String)
    (allDiagnostics : List Diagnostic) (d : Diagnostic) :
    Except String (Option CodeAction) :=
  if d.code == NAMESPACE_ID_MISMATCH then do
    let r ← getDiagReplacement d.data
    .ok (some (getQuickFixReplacement [d] "Replace namespace id" d.range r))
  else if d.code == NAMESPACE_ID_MISMATCH_HASH_COMMENT then do
    let r ← getDiagReplacement d.data
    .ok (some (getQuickFixReplacement [d] "Replace namespace comment" d.range r))
  else if d.code == NAMESPACE_HASH_MISMATCH then do
    let r ← getDiagReplacement d.data
    .ok (some (getQuickFixReplacement [d] "Recalculate hash using comment" d.range r))
  else if d.code == NAMESPACE_STANDALONE_HASH_MISMATCH then do
    let r ← getDiagReplacement d.data
    .ok (some (getQuickFixReplacement [d] "Recalculate hash using expected id" d.range r))
  else if d.code == CONTRACT_CAN_BE_NAMESPACED then do
    let c ← getDiagContract d.data
    .ok (getMoveAllVariablesToNamespaceQuickFix allDiagnostics
      "Move all variables to namespace" pfx c.1 c.2 doc)
  else .ok none

/-- The loop of `getCodeActions` with its `try` around the whole loop: on a
thrown error the `catch` logs and the function returns the actions pushed
so far. -/
def getCodeActionsAux (doc : List Contract) (pfx : String)
    (allDiagnostics : List Diagnostic) :
    List Diagnostic → List CodeAction → List CodeAction
  | [], acc => acc
  | d :: ds, acc =>
    match processDiagnostic doc pfx allDiagnostics d with
    | .ok (some a) => getCodeActionsAux doc pfx allDiagnostics ds (acc ++ [a])
    | .ok none => getCodeActionsAux doc pfx allDiagnostics ds acc
    | .error _ => acc

/-- `getCodeActions(diagnostics, textDocument, params)`: process the batch
left to right inside one `try`; the move-to-namespace branch receives the
whole batch as the diagnostics its action fixes.  The namespace prefix
setting resolved per document is the parameter `pfx`. -/
def getCodeActions (diagnostics : List Diagnostic) (doc : List Contract)
    (pfx : String) : List CodeAction :=
  getCodeActionsAux doc pfx diagnostics diagnostics []

/-! ## Derived notions used by the statements -/

/-- Whether two spans intersect in at least one position. -/
def TextRange.overlaps (a b : TextRange) : Bool :=
  decide (a.start < b.stop) && decide (b.start < a.stop)

/-- Whether the edits of one action are pairwise non-overlapping. -/
def editsPairwiseDisjoint : List TextEdit → Bool
  | [] => true
  | e :: es => es.all (fun f => !(e.range.overlaps f.range)) && editsPairwiseDisjoint es

/-- Whether a character is a lowercase hexadecimal digit. -/
def isLowerHexDigit (c : Char) : Bool :=
  decide ((48 ≤ c.toNat ∧ c.toNat ≤ 57) ∨ (97 ≤ c.toNat ∧ c.toNat ≤ 102))

/-! ## Concrete documents used at concrete inputs -/

/-- A contract `Foo` that already carries the canonical namespace annotation
for prefix `pfx`, so the existing-namespace path runs (its first close-brace
terminal spans offsets 50..51). -/
def annotatedFoo : Contract :=
  { name := "Foo", valid := true,
    firstNatspec := some "/// @custom:storage-location erc7201:pfx.storage.Foo",
    firstCloseBrace := { start := 50, stop := 51 },
    bodies := [] }

/-- Two plain storage variables of `Foo` at disjoint ranges. -/
def fooVars : List Variable :=
  [{ name := "x", content := "uint256 x;", range := { start := 100, stop := 110 },
     publicGetter := none },
   { name := "y", content := "uint256 y;", range := { start := 111, stop := 121 },
     publicGetter := none }]

/-- A document whose only contract is named `Bar`: any diagnostic naming
`Foo` is stale against it. -/
def barOnlyDoc : List Contract :=
  [{ name := "Bar", valid := true, firstNatspec := none,
     firstCloseBrace := { start := 0, stop := 1 }, bodies := [] }]

/-- The one stale variable carried by the stale diagnostic. -/
def staleVars : List Variable :=
  [{ name := "x", content := "uint256 x;", range := { start := 5, stop := 15 },
     publicGetter := none }]

/-- A diagnostic whose fix datum is absent: synthesizing its edit throws. -/
def badDiag : Diagnostic :=
  { code := NAMESPACE_ID_MISMATCH, range := { start := 0, stop := 1 }, data := .missing }

/-- A well-formed literal-replacement diagnostic. -/
def goodDiag : Diagnostic :=
  { code := NAMESPACE_ID_MISMATCH, range := { start := 2, stop := 3 },
    data := .replacement "good" }

/-- The variable `x` a move-to-namespace diagnostic asks to move. -/
def varX : Variable :=
  { name := "x", content := "uint256 x;", range := { start := 10, stop := 20 },
    publicGetter := none }

/-- A contract `Foo` without a namespace annotation whose one function body
mentions `x` and has not been migrated yet. -/
def freshFoo : Contract :=
  { name := "Foo", valid := true, firstNatspec := none,
    firstCloseBrace := { start := 40, stop := 41 },
    bodies := [{ openBraceRange := { start := 60, stop := 61 },
                 identifiers := [{ text := "x", range := { start := 70, stop := 71 } }],
                 unparsed := "\x7b x += 1; \x7d" }] }

/-- A contract `Foo` without a namespace annotation whose one function body
mentions `x` but already contains the storage-pointer declaration line. -/
def migratedFoo : Contract :=
  { name := "Foo", valid := true, firstNatspec := none,
    firstCloseBrace := { start := 40, stop := 41 },
    bodies := [{ openBraceRange := { start := 60, stop := 61 },
                 identifiers := [{ text := "x", range := { start := 70, stop := 71 } }],
                 unparsed := "\x7b\n        FooStorage storage $ = _getFooStorage();\n        $.x += 1; \x7d" }] }

set_option maxRecDepth 1000000

/-! ## Helper lemmas -/

/-- An identifier rewrite's text is never empty. -/
theorem dollar_ne_empty (t : String) : ("$." ++ t) ≠ "" := fun h => by
  have hh : '$' = 'A' := congrArg (fun s : String => s.data.headD 'A') h
  exact absurd hh (by decide)

/-- An identifier rewrite's text is never the namespace template (the
template starts with the id comment's slashes). -/
theorem dollar_ne_template (t : String) (ns : Namespace) :
    ("$." ++ t) ≠ printNamespaceTemplate ns := fun h => by
  have hh : '$' = '/' := congrArg (fun s : String => s.data.headD 'A') h
  exact absurd hh (by decide)

/-- An identifier rewrite's text is never the storage-getter insertion text
(which starts with the opening brace). -/
theorem dollar_ne_insert (t n : String) : ("$." ++ t) ≠ storageGetterInsertText n := fun h => by
  have hh : '$' = '\x7b' := congrArg (fun s : String => s.data.headD 'A') h
  exact absurd hh (by decide)

/-- The storage-getter insertion text is never the namespace template. -/
theorem insert_ne_template (n : String) (ns : Namespace) :
    storageGetterInsertText n ≠ printNamespaceTemplate ns := fun h => by
  have hh : '\x7b' = '/' := congrArg (fun s : String => s.data.headD 'A') h
  exact absurd hh (by decide)

/-- The storage-getter insertion text is never empty. -/
theorem insert_ne_empty (n : String) : storageGetterInsertText n ≠ "" := fun h => by
  have hh : '\x7b' = 'A' := congrArg (fun s : String => s.data.headD 'A') h
  exact absurd hh (by decide)

/-- The namespace template is never empty. -/
theorem template_ne_empty (ns : Namespace) : printNamespaceTemplate ns ≠ "" := fun h => by
  have hh : '/' = 'A' := congrArg (fun s : String => s.data.headD 'A') h
  exact absurd hh (by decide)

/-- Filtering distributes over the model's flatMap. -/
theorem filter_flatMapL (p : β → Bool) (f : α → List β) (l : List α) :
    (flatMapL f l).filter p = flatMapL (fun x => (f x).filter p) l := by
  induction l with
  | nil => rfl
  | cons a as ih => simp [flatMapL, List.filter_append, ih]

/-- flatMap of a guarded singleton is a filtered map. -/
theorem flatMapL_singletonIf (q : α → Bool) (g : α → β) (l : List α) :
    flatMapL (fun x => if q x then [g x] else []) l = (l.filter q).map g := by
  induction l with
  | nil => rfl
  | cons a as ih =>
    by_cases h : q a = true
    · simp [flatMapL, h, ih]
    · simp at h
      simp [flatMapL, h, ih]

/-- flatMap of the empty-list function is empty. -/
theorem flatMapL_nil (l : List α) : flatMapL (fun _ => ([] : List β)) l = [] := by
  induction l with
  | nil => rfl
  | cons a as ih => simp [flatMapL, ih]

/-- A mapped list whose images all fail the filter filters to nothing. -/
theorem filter_map_nil (f : α → β) (p : β → Bool) (h : ∀ a, p (f a) = false)
    (l : List α) : (l.map f).filter p = [] := by
  induction l with
  | nil => rfl
  | cons a as ih => simp [List.filter, h, ih]

/-- A mapped list whose images all pass the filter filters to itself. -/
theorem filter_map_id (f : α → β) (p : β → Bool) (h : ∀ a, p (f a) = true)
    (l : List α) : (l.map f).filter p = l.map f := by
  induction l with
  | nil => rfl
  | cons a as ih => simp [List.filter, h, ih]

/-- The loop of `replaceVariables` in closed form: the pushed edits rewrite
exactly the matching identifiers in order, and the flag is whether any
identifier matched. -/
theorem replaceVariables_characterization (vs : List Variable) (l : List Identifier) :
    replaceVariables vs l =
      ((l.filter (varNameMatches vs)).map
          (fun i => { range := i.range, newText := "$." ++ i.text }),
        l.any (varNameMatches vs)) := by
  induction l with
  | nil => rfl
  | cons i is ih =>
    by_cases h : varNameMatches vs i = true
    · simp [replaceVariables, h, ih]
    · simp at h
      simp [replaceVariables, h, ih]

/-- The storage-getter insertion edits of one body's contribution. -/
theorem bodyEdits_filter_insert (n : String) (vs : List Variable) (b : Body) :
    (bodyEdits n vs b).filter (fun e => e.newText == storageGetterInsertText n) =
      if b.identifiers.any (varNameMatches vs) &&
          !(strContains b.unparsed (expectedGetterLine n)) then
        [{ range := b.openBraceRange, newText := storageGetterInsertText n }]
      else [] := by
  simp only [bodyEdits, replaceVariables_characterization, List.filter_append]
  rw [filter_map_nil _ _ (fun i => by
    simp only [beq_eq_false_iff_ne, ne_eq]
    exact dollar_ne_insert i.text n)]
  cases ha : b.identifiers.any (varNameMatches vs) with
  | false => simp [ha]
  | true =>
    cases hc : strContains b.unparsed (expectedGetterLine n) with
    | true => simp [addStorageGetter, hc]
    | false => simp [addStorageGetter, hc, List.filter]

/-- One body's contribution never carries the namespace template. -/
theorem bodyEdits_filter_template (n : String) (vs : List Variable) (ns : Namespace) (b : Body) :
    (bodyEdits n vs b).filter (fun e => e.newText == printNamespaceTemplate ns) = [] := by
  simp only [bodyEdits, replaceVariables_characterization, List.filter_append]
  rw [filter_map_nil _ _ (fun i => by
    simp only [beq_eq_false_iff_ne, ne_eq]
    exact dollar_ne_template i.text ns)]
  cases ha : b.identifiers.any (varNameMatches vs) with
  | false => simp
  | true =>
    cases hc : strContains b.unparsed (expectedGetterLine n) with
    | true => simp [addStorageGetter, hc]
    | false =>
      have hb : (storageGetterInsertText n == printNamespaceTemplate ns) = false := by
        simp only [beq_eq_false_iff_ne, ne_eq]
        exact insert_ne_template n ns
      simp [addStorageGetter, hc, List.filter, hb]

/-- One body's contribution never carries an empty replacement. -/
theorem bodyEdits_filter_empty (n : String) (vs : List Variable) (b : Body) :
    (bodyEdits n vs b).filter (fun e => e.newText == "") = [] := by
  simp only [bodyEdits, replaceVariables_characterization, List.filter_append]
  rw [filter_map_nil _ _ (fun i => by
    simp only [beq_eq_false_iff_ne, ne_eq]
    exact dollar_ne_empty i.text)]
  cases ha : b.identifiers.any (varNameMatches vs) with
  | false => simp
  | true =>
    cases hc : strContains b.unparsed (expectedGetterLine n) with
    | true => simp [addStorageGetter, hc]
    | false =>
      have hb : (storageGetterInsertText n == "") = false := by
        simp only [beq_eq_false_iff_ne, ne_eq]
        exact insert_ne_empty n
      simp [addStorageGetter, hc, List.filter, hb]

/-- The storage-getter insertion edits of the whole in-function pass: one
per body that rewrote an identifier and does not already contain the
expected line, at that body's opening brace, in document order. -/
theorem funcEdits_filter_insert (c : Contract) (n : String) (vs : List Variable) :
    (editNamespaceVariablesInFunctions c n vs).filter
        (fun e => e.newText == storageGetterInsertText n) =
      (c.bodies.filter (fun b => b.identifiers.any (varNameMatches vs) &&
          !(strContains b.unparsed (expectedGetterLine n)))).map
        (fun b => { range := b.openBraceRange, newText := storageGetterInsertText n }) := by
  rw [editNamespaceVariablesInFunctions, filter_flatMapL]
  simp only [bodyEdits_filter_insert]
  exact flatMapL_singletonIf _ _ _

/-- The in-function pass never produces a namespace-template edit. -/
theorem funcEdits_filter_template (c : Contract) (n : String) (vs : List Variable)
    (ns : Namespace) :
    (editNamespaceVariablesInFunctions c n vs).filter
      (fun e => e.newText == printNamespaceTemplate ns) = [] := by
  rw [editNamespaceVariablesInFunctions, filter_flatMapL]
  simp only [bodyEdits_filter_template]
  exact flatMapL_nil _

/-- The in-function pass never produces a deletion edit. -/
theorem funcEdits_filter_empty (c : Contract) (n : String) (vs : List Variable) :
    (editNamespaceVariablesInFunctions c n vs).filter (fun e => e.newText == "") = [] := by
  rw [editNamespaceVariablesInFunctions, filter_flatMapL]
  simp only [bodyEdits_filter_empty]
  exact flatMapL_nil _

/-- `hex64` always renders 64 characters. -/
theorem hex64_length (m : Nat) : (hex64 m).length = 64 := by simp [hex64]

/-- Every rendered nibble is a lowercase hex digit. -/
theorem isLowerHexDigit_hexDigitChar (m : Nat) :
    isLowerHexDigit (hexDigitChar (m % 16)) = true := by
  have h : m % 16 < 16 := Nat.mod_lt _ (by norm_num)
  revert h
  generalize m % 16 = k
  intro h
  interval_cases k <;> decide

/-- Every character of a `hex64` rendering is a lowercase hex digit. -/
theorem hex64_all_lower (m : Nat) : (hex64 m).all isLowerHexDigit = true := by
  rw [hex64]
  simp only [List.all_eq_true, List.mem_map]
  rintro c ⟨i, _, rfl⟩
  exact isLowerHexDigit_hexDigitChar _

/-- A list ending in a cons is not empty. -/
theorem isEmpty_append_cons (l₁ : List α) (x : α) (l₂ : List α) :
    (l₁ ++ x :: l₂).isEmpty = false := by
  cases l₁ <;> simp [List.isEmpty]

/-- Once the loop of `getCodeActions` reaches a diagnostic whose processing
throws, the rest of the batch contributes nothing: the accumulated actions
are returned as they stood. -/
theorem getCodeActionsAux_error (doc : List Contract) (pfx : String) (all : List Diagnostic)
    (d : Diagnostic) (ds2 : List Diagnostic) (msg : String)
    (h : processDiagnostic doc pfx all d = .error msg) :
    ∀ (ds1 : List Diagnostic) (acc : List CodeAction),
      getCodeActionsAux doc pfx all (ds1 ++ d :: ds2) acc =
        getCodeActionsAux doc pfx all ds1 acc := by
  intro ds1
  induction ds1 with
  | nil => intro acc; simp [getCodeActionsAux, h]
  | cons d' ds1' ih =>
    intro acc
    simp only [List.cons_append, getCodeActionsAux]
    cases hp : processDiagnostic doc pfx all d' with
    | error e => simp only [hp]
    | ok o =>
      cases o with
      | some a => simp only [hp]; exact ih _
      | none => simp only [hp]; exact ih _

/-! ## The claims -/

/-- Claim C1, counterexample: with the slot formula as the spec states it
(`slot = (keccak256(id) - 1) and not 0xff`, single hash), the published
ERC-7201 example identifier `example.main` does not map to the standard's
published slot constant — that constant comes from the double-keccak
formula — so no function satisfies both halves of the claim at once. -/
theorem computeSlotHash_example_ne_published :
    computeSlotHash "example.main" ≠
      "0x183a6125c38840424c4a85fa12bab2ab606c4b6d0e7cc73c0c06ba5300eab500" := by
  decide

/-- Claim C1 (amended): with the slot formula of the ERC-7201 standard,
`slot = keccak256(abi.encode(uint256(keccak256(id)) - 1)) & ~bytes32(uint256(0xff))`,
the result is always a lowercase `0x`-prefixed 64-hex-digit (66-character)
string, and for the standard's published example identifier `example.main`
it equals the published slot constant. -/
theorem erc7201SlotHash_format_and_golden :
    (∀ id : String, (erc7201SlotHash id).length = 66 ∧
      (erc7201SlotHash id).data.take 2 = ['0', 'x'] ∧
      ((erc7201SlotHash id).data.drop 2).all isLowerHexDigit = true) ∧
    erc7201SlotHash "example.main" =
      "0x183a6125c38840424c4a85fa12bab2ab606c4b6d0e7cc73c0c06ba5300eab500" := by
  refine ⟨fun id => ⟨?_, ?_, ?_⟩, by decide⟩
  · show ('0' :: 'x' :: hex64 _).length = 66
    simp [List.length_cons, hex64_length]
  · rfl
  · show (hex64 _).all isLowerHexDigit = true
    exact hex64_all_lower _

/-- Claim C2, evaluated at the failing input: moving two variables into a
contract whose namespace struct already exists pushes one field-insertion
edit per variable, each replacing the same close-brace range, so the
returned action's edits are not pairwise non-overlapping. -/
theorem existingNamespace_insertions_overlap :
    ((getMoveAllVariablesToNamespaceQuickFix [] "Move all variables to namespace" "pfx" "Foo"
        fooVars [annotatedFoo]).map (fun a => editsPairwiseDisjoint a.edits)) = some false := by
  decide

/-- Claim C3, evaluated at the failing input: requesting the fix for
contract `Foo` against a document whose only contract is `Bar` does not
return `undefined`; it returns an action whose one edit targets the stale
variable range carried by the diagnostic (the new-namespace path runs with
no contract found). -/
theorem staleContract_returns_stale_action :
    ((getMoveAllVariablesToNamespaceQuickFix [] "Move all variables to namespace" "pfx" "Foo"
        staleVars barOnlyDoc).map (fun a => a.edits.map (fun e => e.range))) =
      some [{ start := 5, stop := 15 }] := by
  decide

/-- Claim C4, counterexample: a batch whose first diagnostic's fix datum is
absent (so synthesizing its edit throws) yields no action at all, while the
same well-formed second diagnostic alone yields its action — the failure
prevented the later diagnostic's action. -/
theorem getCodeActions_failure_blocks_later :
    getCodeActions [badDiag, goodDiag] [] "pfx" = [] ∧
    getCodeActions [goodDiag] [] "pfx" =
      [{ title := "Replace namespace id",
         edits := [{ range := { start := 2, stop := 3 }, newText := "good" }],
         fixes := [goodDiag] }] :=
  ⟨rfl, rfl⟩

/-- Claim C4 (amended): a thrown failure while synthesizing one
diagnostic's edits is caught outside the loop, so the batch's result is the
actions accumulated for the diagnostics before the failing one; the failing
diagnostic and every diagnostic after it contribute no action. -/
theorem getCodeActions_error_keeps_earlier_actions (doc : List Contract) (pfx : String)
    (ds1 : List Diagnostic) (d : Diagnostic) (ds2 : List Diagnostic) (msg : String)
    (h : processDiagnostic doc pfx (ds1 ++ d :: ds2) d = .error msg) :
    getCodeActions (ds1 ++ d :: ds2) doc pfx =
      getCodeActionsAux doc pfx (ds1 ++ d :: ds2) ds1 [] :=
  getCodeActionsAux_error doc pfx (ds1 ++ d :: ds2) d ds2 msg h ds1 []

/-- Claim C4, witness: the amended statement at a concrete batch, one good
diagnostic before the throwing one and one after. -/
theorem getCodeActions_error_keeps_earlier_actions_witness :
    getCodeActions ([goodDiag] ++ badDiag :: [goodDiag]) [] "pfx" =
      getCodeActionsAux [] "pfx" ([goodDiag] ++ badDiag :: [goodDiag]) [goodDiag] [] :=
  getCodeActions_error_keeps_earlier_actions [] "pfx" [goodDiag] badDiag [goodDiag]
    "TypeError" rfl

/-- Claim C5, counterexample: a contract body that references a moved
variable but already contains the storage-pointer declaration line receives
no storage-pointer-insertion edit, against the claim's "exactly one per
body that contains a matching identifier". -/
theorem moveFix_migrated_body_no_insertion :
    (migratedFoo.bodies.all (fun b => b.identifiers.any (varNameMatches [varX]))) = true ∧
    ((getMoveAllVariablesToNamespaceQuickFix [] "Move all variables to namespace" "p" "Foo"
        [varX] [migratedFoo]).map
      (fun a => (a.edits.filter (fun e => e.newText == storageGetterInsertText "Foo")).length)) =
      some 0 :=
  ⟨by decide, by decide⟩

/-- Claim C5 (amended): when the named contract resolves and no namespace
struct is detected, the returned action holds exactly one edit replacing
the first variable's range with the synthesized namespace template, exactly
one empty-replacement (deletion) edit per remaining variable at its range,
and exactly one storage-pointer-insertion edit per constructor or function
body that contains an identifier matching a moved variable's name and does
not already contain the storage-pointer declaration line. -/
theorem moveFix_new_namespace_edit_shape (fixes : List Diagnostic) (title pfx n : String)
    (doc : List Contract) (c : Contract) (v0 : Variable) (rest : List Variable)
    (hfind : findTarget n doc = some c)
    (hns : getNamespaceStructEndRange c pfx n = none) :
    ∃ a, getMoveAllVariablesToNamespaceQuickFix fixes title pfx n (v0 :: rest) doc = some a ∧
      a.edits.filter (fun e => e.newText == printNamespaceTemplate ⟨n, pfx, v0 :: rest⟩) =
        [{ range := v0.range, newText := printNamespaceTemplate ⟨n, pfx, v0 :: rest⟩ }] ∧
      a.edits.filter (fun e => e.newText == "") =
        rest.map (fun v => { range := v.range, newText := "" }) ∧
      a.edits.filter (fun e => e.newText == storageGetterInsertText n) =
        (c.bodies.filter (fun b => b.identifiers.any (varNameMatches (v0 :: rest)) &&
            !(strContains b.unparsed (expectedGetterLine n)))).map
          (fun b => { range := b.openBraceRange, newText := storageGetterInsertText n }) := by
  refine ⟨{ title := title,
            edits := editNamespaceVariablesInFunctions c n (v0 :: rest) ++
              editNewNamespace pfx n (v0 :: rest),
            fixes := fixes }, ?_, ?_, ?_, ?_⟩
  · simp [getMoveAllVariablesToNamespaceQuickFix, hfind, hns]
  · rw [List.filter_append, funcEdits_filter_template]
    have h2 : ∀ v : Variable,
        ((("" : String)) == printNamespaceTemplate ⟨n, pfx, v0 :: rest⟩) = false := by
      intro v
      simp only [beq_eq_false_iff_ne, ne_eq]
      exact fun h => template_ne_empty _ h.symm
    simp [editNewNamespace, List.filter, filter_map_nil _ _ h2]
    intro a _
    exact fun h => template_ne_empty _ h.symm
  · rw [List.filter_append, funcEdits_filter_empty]
    have h1 : (printNamespaceTemplate ⟨n, pfx, v0 :: rest⟩ == ("" : String)) = false := by
      simp only [beq_eq_false_iff_ne, ne_eq]
      exact template_ne_empty _
    have h2 : ∀ v : Variable, ((("" : String)) == ("" : String)) = true := fun _ => by simp
    simp [editNewNamespace, List.filter, h1, filter_map_id _ _ h2]
  · rw [List.filter_append, funcEdits_filter_insert]
    have h1 : (printNamespaceTemplate ⟨n, pfx, v0 :: rest⟩ == storageGetterInsertText n) = false := by
      simp only [beq_eq_false_iff_ne, ne_eq]
      exact fun h => insert_ne_template n _ h.symm
    have h2 : ∀ v : Variable, ((("" : String)) == storageGetterInsertText n) = false := by
      intro v
      simp only [beq_eq_false_iff_ne, ne_eq]
      exact fun h => insert_ne_empty n h.symm
    simp [editNewNamespace, List.filter, h1, filter_map_nil _ _ h2]
    intro a _
    exact fun h => insert_ne_empty n h.symm

/-- Claim C5, witness: the amended statement at a concrete document — one
fresh contract `Foo`, one variable `x`, one body referencing `x`. -/
theorem moveFix_new_namespace_edit_shape_witness :
    ∃ a, getMoveAllVariablesToNamespaceQuickFix [] "Move all variables to namespace" "p" "Foo"
        [varX] [freshFoo] = some a ∧
      a.edits.filter (fun e => e.newText == printNamespaceTemplate ⟨"Foo", "p", [varX]⟩) =
        [{ range := varX.range, newText := printNamespaceTemplate ⟨"Foo", "p", [varX]⟩ }] ∧
      a.edits.filter (fun e => e.newText == "") =
        ([] : List Variable).map (fun v => { range := v.range, newText := "" }) ∧
      a.edits.filter (fun e => e.newText == storageGetterInsertText "Foo") =
        (freshFoo.bodies.filter (fun b => b.identifiers.any (varNameMatches [varX]) &&
            !(strContains b.unparsed (expectedGetterLine "Foo")))).map
          (fun b => { range := b.openBraceRange, newText := storageGetterInsertText "Foo" }) :=
  moveFix_new_namespace_edit_shape [] "Move all variables to namespace" "p" "Foo" [freshFoo]
    freshFoo varX [] (by decide) (by decide)

/-- Claim C6: across every constructor and function body of the contract, a
storage-pointer declaration edit is produced exactly for the bodies whose
identifier pass rewrote something and whose text does not already contain
the identical declaration line — so an already-migrated body receives no
duplicate insertion. -/
theorem storageGetter_inserted_iff_absent (c : Contract) (n : String) (vs : List Variable) :
    (editNamespaceVariablesInFunctions c n vs).filter
        (fun e => e.newText == storageGetterInsertText n) =
      (c.bodies.filter (fun b => (replaceVariables vs b.identifiers).2 &&
          !(strContains b.unparsed (expectedGetterLine n)))).map
        (fun b => { range := b.openBraceRange, newText := storageGetterInsertText n }) := by
  simp only [replaceVariables_characterization]
  exact funcEdits_filter_insert c n vs

/-- Claim C7: for each of the four mismatch diagnostic kinds, the produced
action carries exactly one text edit, whose range is the diagnostic's range
and whose text is the diagnostic's fix-datum replacement string. -/
theorem mismatch_fix_single_edit (doc : List Contract) (pfx : String)
    (all : List Diagnostic) (r : TextRange) (s : String) :
    (processDiagnostic doc pfx all
        { code := NAMESPACE_ID_MISMATCH, range := r, data := .replacement s } =
      .ok (some { title := "Replace namespace id", edits := [{ range := r, newText := s }],
                  fixes := [{ code := NAMESPACE_ID_MISMATCH, range := r, data := .replacement s }] })) ∧
    (processDiagnostic doc pfx all
        { code := NAMESPACE_ID_MISMATCH_HASH_COMMENT, range := r, data := .replacement s } =
      .ok (some { title := "Replace namespace comment", edits := [{ range := r, newText := s }],
                  fixes := [{ code := NAMESPACE_ID_MISMATCH_HASH_COMMENT, range := r, data := .replacement s }] })) ∧
    (processDiagnostic doc pfx all
        { code := NAMESPACE_HASH_MISMATCH, range := r, data := .replacement s } =
      .ok (some { title := "Recalculate hash using comment", edits := [{ range := r, newText := s }],
                  fixes := [{ code := NAMESPACE_HASH_MISMATCH, range := r, data := .replacement s }] })) ∧
    (processDiagnostic doc pfx all
        { code := NAMESPACE_STANDALONE_HASH_MISMATCH, range := r, data := .replacement s } =
      .ok (some { title := "Recalculate hash using expected id", edits := [{ range := r, newText := s }],
                  fixes := [{ code := NAMESPACE_STANDALONE_HASH_MISMATCH, range := r, data := .replacement s }] })) :=
  ⟨rfl, rfl, rfl, rfl⟩

/-- Claim C8: the move-to-namespace fix returns `undefined` exactly when the
variable list is empty; whenever it does return an action, that single
action's edit list is non-empty. -/
theorem moveFix_none_iff_no_variables (fixes : List Diagnostic) (title pfx n : String)
    (vs : List Variable) (doc : List Contract) :
    (getMoveAllVariablesToNamespaceQuickFix fixes title pfx n vs doc).map
        (fun a => a.edits.isEmpty) =
      if vs.isEmpty then none else some false := by
  cases vs with
  | nil => simp [getMoveAllVariablesToNamespaceQuickFix]
  | cons v0 rest =>
    cases hT : findTarget n doc with
    | none =>
      simp [getMoveAllVariablesToNamespaceQuickFix, hT, editNewNamespace, isEmpty_append_cons]
    | some c =>
      cases hE : getNamespaceStructEndRange c pfx n with
      | none =>
        simp [getMoveAllVariablesToNamespaceQuickFix, hT, hE, editNewNamespace,
          isEmpty_append_cons]
      | some r =>
        cases hP : v0.publicGetter with
        | none =>
          simp [getMoveAllVariablesToNamespaceQuickFix, hT, hE, editExistingNamespace,
            flatMapL, hP, isEmpty_append_cons]
        | some g =>
          simp [getMoveAllVariablesToNamespaceQuickFix, hT, hE, editExistingNamespace,
            flatMapL, hP, isEmpty_append_cons]

/-- Claim C9: the existing-namespace detection reports an insertion point
exactly when the first single-line NatSpec comment anywhere in the contract
contains the canonical storage-location tag for the prefix and contract
name, and the reported point is always the range of the first close-brace
terminal anywhere in the contract. -/
theorem namespaceStructEnd_first_natspec_first_brace (c : Contract) (pfx n : String)
    (r : TextRange) :
    getNamespaceStructEndRange c pfx n = some r ↔
      ((∃ t, c.firstNatspec = some t ∧
          strContains t ("@custom:storage-location erc7201:" ++ getNamespaceId pfx n) = true) ∧
        r = c.firstCloseBrace) := by
  cases hN : c.firstNatspec with
  | none => simp [getNamespaceStructEndRange, hN]
  | some t =>
    cases hC : strContains t ("@custom:storage-location erc7201:" ++ getNamespaceId pfx n) with
    | false => simp [getNamespaceStructEndRange, hN, hC]
    | true =>
      simp [getNamespaceStructEndRange, hN, hC]
      exact eq_comm

/-- Claim C10: inside one body, every identifier terminal whose text equals
some moved variable's name — whatever it denotes — is rewritten to a
`$.<name>` access, in document order, and the needs-storage-pointer flag is
set exactly when at least one identifier matched. -/
theorem replaceVariables_rewrites_every_matching_identifier (vs : List Variable)
    (l : List Identifier) :
    replaceVariables vs l =
      ((l.filter (fun i => vs.any (fun v => v.name == i.text))).map
          (fun i => { range := i.range, newText := "$." ++ i.text }),
        l.any (fun i => vs.any (fun v => v.name == i.text))) :=
  replaceVariables_characterization vs l
